import Mathlib

/-!
Verification of the Ludo game engine of this repository.

The Lean definitions below are a shallow embedding of the newest iteration of
`src/game/game.service.ts` (the variant with walls, bomb-carrier capture
immunity and single-occupant capture) together with the timer-based
`src/game/game.gateway.ts`.  Positions are modelled as `Int` exactly as the
TypeScript code uses JS numbers (all arithmetic the claims touch stays on
integers; `%` on non-negative operands agrees with `Int.emod`).  Stochastic
inputs (`Math.random()` draws) are passed in explicitly: the dice raw value,
the power-up type drawn, and the stream of sampled power-up spawn cells.
JS `Map` objects are modelled as association lists in insertion order.
Piece indices are assumed in range (the JS code would silently produce
`undefined`/`NaN` states otherwise); theorems carry the corresponding bounds
as hypotheses.
-/

inductive Color where
  | green
  | yellow
  | blue
  | red
deriving DecidableEq

structure BoardCfg where
  start : Int
  turn : Int
  finalPathStart : Int
deriving DecidableEq

/-- The `boardConfig` table of `GameService`. -/
def boardConfig : Color → BoardCfg
  | .green  => { start := 1,  turn := 51, finalPathStart := 100 }
  | .yellow => { start := 14, turn := 12, finalPathStart := 200 }
  | .blue   => { start := 27, turn := 25, finalPathStart := 300 }
  | .red    => { start := 40, turn := 38, finalPathStart := 400 }

structure Bomb where
  pieceIndex : Nat
  timer : Int
deriving DecidableEq

structure LudoPlayerState where
  id : String
  name : String
  color : Color
  pieces : List Int
  multiplier : Int
  bomb : Option Bomb
deriving DecidableEq

inductive Status where
  | waiting
  | inProgress
  | finished
deriving DecidableEq

structure GameState where
  roomId : String
  players : List LudoPlayerState
  turnIndex : Nat
  dice : Option Int
  status : Status
  maxPlayers : Nat
  winners : List String
  totalTurns : Nat
  powerUps : List (Int × String)
deriving DecidableEq

/-- `game.players.find(p => p.id === playerId)`. -/
def findFirst : List LudoPlayerState → String → Option LudoPlayerState
  | [], _ => none
  | p :: rest, pid => if p.id = pid then some p else findFirst rest pid

/-- In-place mutation of the object found by `find` is modelled by replacing
the first list entry whose id matches. -/
def updateFirst (ps : List LudoPlayerState) (pid : String) (f : LudoPlayerState → LudoPlayerState) : List LudoPlayerState :=
  match ps with
  | [] => []
  | p :: rest => if p.id = pid then f p :: rest else p :: updateFirst rest pid f

/-- `p.pieces.filter(piecePos => piecePos === pos).length`. -/
def countPieces (l : List Int) (pos : Int) : Nat :=
  (l.filter (fun pp => decide (pp = pos))).length

/-- `isWallAt`: some player has two or more pieces stacked on `pos`. -/
def isWallAt (g : GameState) (pos : Int) : Bool :=
  g.players.any (fun p => decide (2 ≤ countPieces p.pieces pos))

/-- `isPathBlocked`: scans the stepped cells `(currentPos+1)%52 .. (currentPos+steps)%52`
for a stack of 2+ pieces of a single enemy-colored player. -/
def isPathBlocked (g : GameState) (currentPos : Int) (steps : Int) (myColor : Color) : Bool :=
  if currentPos < 0 ∨ 51 < currentPos then false
  else
    (List.range steps.toNat).any (fun k =>
      g.players.any (fun p =>
        decide (p.color ≠ myColor ∧ 2 ≤ countPieces p.pieces ((currentPos + ((k : Int) + 1)) % 52))))

/-- `let distanceToTurn = config.turn - pos; if (distanceToTurn < 0) distanceToTurn += 52;`
— the `mod 52` distance from a main-track cell to the color's turn-off cell. -/
def distanceToTurn (pos : Int) (color : Color) : Int :=
  if (boardConfig color).turn - pos < 0 then (boardConfig color).turn - pos + 52
  else (boardConfig color).turn - pos

/-- `canMove` of the newest service iteration (home exit on 1 or 6, enemy-wall
path check on the main track, final stretch bounded by the goal cell). -/
def canMove (g : GameState) (pos : Int) (dice : Int) (color : Color) : Bool :=
  if pos = -1 then decide (dice = 1) || decide (dice = 6)
  else if (0 ≤ pos ∧ pos ≤ 51) ∧ isPathBlocked g pos dice color = true then false
  else if 100 ≤ pos then decide (dice ≤ ((boardConfig color).finalPathStart + 5) - pos)
  else if distanceToTurn pos color < dice then decide (dice - distanceToTurn pos color - 1 ≤ 5)
  else true

/-- The destination arithmetic inlined in `movePiece` (home → entry cell,
final stretch → `pos + dice`, main track → shared-track cell or stretch cell). -/
def resolveDestination (pos : Int) (dice : Int) (color : Color) : Int :=
  if pos = -1 then (boardConfig color).start
  else if 100 ≤ pos then pos + dice
  else if distanceToTurn pos color < dice then
    (boardConfig color).finalPathStart + (dice - distanceToTurn pos color - 1)
  else (pos + dice) % 52

lemma boardConfig_turn_range (c : Color) : 0 ≤ (boardConfig c).turn ∧ (boardConfig c).turn ≤ 51 := by
  cases c <;> simp [boardConfig]

lemma boardConfig_base_ge (c : Color) : 100 ≤ (boardConfig c).finalPathStart := by
  cases c <;> simp [boardConfig]

lemma boardConfig_start_range (c : Color) : 0 ≤ (boardConfig c).start ∧ (boardConfig c).start ≤ 51 := by
  cases c <;> simp [boardConfig]

lemma distanceToTurn_range (p : Int) (c : Color) (h0 : 0 ≤ p) (h51 : p ≤ 51) :
    0 ≤ distanceToTurn p c ∧ distanceToTurn p c ≤ 51 := by
  have hturn := boardConfig_turn_range c
  unfold distanceToTurn
  split <;> omega

/-- C1.  For every dice value 1–6 and every piece position that is home, a
main-track cell, or a cell of the mover's final stretch, if `canMove` accepts
the move then the destination computed by the arithmetic inlined in
`movePiece` is the color's entry cell, a main-track cell in `0..51`, or a
final-stretch cell between the color's stretch base and the goal cell
`base + 5` — never out of range. -/
theorem canMove_resolveDestination_in_range (g : GameState) (c : Color) (d p : Int)
    (hd1 : 1 ≤ d) (hd6 : d ≤ 6)
    (hp : p = -1 ∨ (0 ≤ p ∧ p ≤ 51) ∨
      ((boardConfig c).finalPathStart ≤ p ∧ p ≤ (boardConfig c).finalPathStart + 5))
    (hcan : canMove g p d c = true) :
    resolveDestination p d c = (boardConfig c).start ∨
    (0 ≤ resolveDestination p d c ∧ resolveDestination p d c ≤ 51) ∨
    ((boardConfig c).finalPathStart ≤ resolveDestination p d c ∧
      resolveDestination p d c ≤ (boardConfig c).finalPathStart + 5) := by
  have hturn := boardConfig_turn_range c
  have hbase := boardConfig_base_ge c
  rcases hp with hp | hp | hp
  · subst hp
    left
    simp [resolveDestination]
  · have hne : ¬ p = -1 := by omega
    have hlt : ¬ 100 ≤ p := by omega
    have hdt := distanceToTurn_range p c hp.1 hp.2
    unfold resolveDestination
    rw [if_neg hne, if_neg hlt]
    unfold canMove at hcan
    rw [if_neg hne] at hcan
    by_cases hblk : isPathBlocked g p d c = true
    · rw [if_pos ⟨⟨hp.1, hp.2⟩, hblk⟩] at hcan
      exact absurd hcan (by simp)
    · rw [if_neg (by tauto), if_neg hlt] at hcan
      by_cases h2 : distanceToTurn p c < d
      · rw [if_pos h2] at hcan ⊢
        have := of_decide_eq_true hcan
        right; right
        omega
      · rw [if_neg h2]
        right; left
        constructor
        · exact Int.emod_nonneg _ (by norm_num)
        · have h52 := Int.emod_lt_of_pos (p + d) (b := 52) (by norm_num)
          omega
  · have hne : ¬ p = -1 := by omega
    have h100 : 100 ≤ p := by omega
    have hnotmain : ¬ ((0 ≤ p ∧ p ≤ 51) ∧ isPathBlocked g p d c = true) := by
      intro h
      omega
    unfold resolveDestination
    rw [if_neg hne, if_pos h100]
    unfold canMove at hcan
    rw [if_neg hne, if_neg hnotmain, if_pos h100] at hcan
    have := of_decide_eq_true hcan
    right; right
    omega

/-- Sample two-player game used by concrete witness theorems: green to move,
dice already rolled, a mystery tile on cell 5. -/
def samplePG : LudoPlayerState :=
  { id := "p1", name := "Ana", color := .green, pieces := [3, -1, -1, -1], multiplier := 1, bomb := none }

def samplePY : LudoPlayerState :=
  { id := "p2", name := "Bea", color := .yellow, pieces := [20, -1, -1, -1], multiplier := 1, bomb := none }

def sampleGameA : GameState :=
  { roomId := "r1", players := [samplePG, samplePY], turnIndex := 0, dice := some 2,
    status := .inProgress, maxPlayers := 4, winners := [], totalTurns := 0,
    powerUps := [(5, "mystery")] }

/-- Sample game with a green wall (two stacked pieces) on cell 10, yellow to move from cell 8. -/
def sampleWallG : LudoPlayerState :=
  { id := "w1", name := "Gus", color := .green, pieces := [10, 10, -1, -1], multiplier := 1, bomb := none }

def sampleWallY : LudoPlayerState :=
  { id := "w2", name := "Yol", color := .yellow, pieces := [8, -1, -1, -1], multiplier := 1, bomb := none }

def sampleGameWall : GameState :=
  { roomId := "r2", players := [sampleWallG, sampleWallY], turnIndex := 1, dice := some 3,
    status := .inProgress, maxPlayers := 4, winners := [], totalTurns := 0, powerUps := [] }

/-- Witness for C1 at a concrete input: green moving 3 from main-track cell 5. -/
theorem canMove_resolveDestination_in_range_witness :
    ((1 : Int) ≤ 3) ∧ ((3 : Int) ≤ 6) ∧
    ((5 : Int) = -1 ∨ ((0 : Int) ≤ 5 ∧ (5 : Int) ≤ 51) ∨
      ((boardConfig .green).finalPathStart ≤ 5 ∧ (5 : Int) ≤ (boardConfig .green).finalPathStart + 5)) ∧
    (canMove sampleGameA 5 3 .green = true) ∧
    (resolveDestination 5 3 .green = (boardConfig .green).start ∨
      (0 ≤ resolveDestination 5 3 .green ∧ resolveDestination 5 3 .green ≤ 51) ∨
      ((boardConfig .green).finalPathStart ≤ resolveDestination 5 3 .green ∧
        resolveDestination 5 3 .green ≤ (boardConfig .green).finalPathStart + 5)) :=
  ⟨by decide, by decide, by decide, by decide,
    canMove_resolveDestination_in_range sampleGameA .green 3 5 (by decide) (by decide)
      (by decide) (by decide)⟩

/-- C3.  On the main track a move is illegal whenever some stepped cell
`(p+1)%52 .. (p+d)%52` holds two or more pieces of a single enemy-colored
player; `isPathBlocked` is true exactly in that case (so a stack of the
mover's own color never blocks). -/
theorem isPathBlocked_enemy_wall_spec (g : GameState) (p d : Int) (c : Color)
    (hp0 : 0 ≤ p) (hp51 : p ≤ 51) (hd : 1 ≤ d) :
    (isPathBlocked g p d c = true ↔
      ∃ i : Int, 1 ≤ i ∧ i ≤ d ∧
        ∃ q ∈ g.players, q.color ≠ c ∧ 2 ≤ countPieces q.pieces ((p + i) % 52)) ∧
    ((∃ i : Int, 1 ≤ i ∧ i ≤ d ∧
        ∃ q ∈ g.players, q.color ≠ c ∧ 2 ≤ countPieces q.pieces ((p + i) % 52)) →
      canMove g p d c = false) := by
  have hifneg : ¬ (p < 0 ∨ 51 < p) := by omega
  have hiff : isPathBlocked g p d c = true ↔
      ∃ i : Int, 1 ≤ i ∧ i ≤ d ∧
        ∃ q ∈ g.players, q.color ≠ c ∧ 2 ≤ countPieces q.pieces ((p + i) % 52) := by
    unfold isPathBlocked
    rw [if_neg hifneg]
    simp only [List.any_eq_true, List.mem_range, decide_eq_true_eq]
    constructor
    · rintro ⟨k, hk, q, hq, hqc, hqn⟩
      exact ⟨(k : Int) + 1, by omega, by omega, q, hq, hqc, hqn⟩
    · rintro ⟨i, hi1, hid, q, hq, hqc, hqn⟩
      refine ⟨(i - 1).toNat, by omega, q, hq, hqc, ?_⟩
      have heq : ((i - 1).toNat : Int) + 1 = i := by omega
      rw [heq]
      exact hqn
  refine ⟨hiff, fun h => ?_⟩
  have hb := hiff.mpr h
  unfold canMove
  rw [if_neg (show ¬ p = -1 by omega), if_pos ⟨⟨hp0, hp51⟩, hb⟩]

/-- Witness for C3 at a concrete input: yellow moving 3 from cell 8 across the
green wall on cell 10. -/
theorem isPathBlocked_enemy_wall_spec_witness :
    ((0 : Int) ≤ 8) ∧ ((8 : Int) ≤ 51) ∧ ((1 : Int) ≤ 3) ∧
    ((isPathBlocked sampleGameWall 8 3 .yellow = true ↔
      ∃ i : Int, 1 ≤ i ∧ i ≤ 3 ∧
        ∃ q ∈ sampleGameWall.players, q.color ≠ .yellow ∧
          2 ≤ countPieces q.pieces ((8 + i) % 52)) ∧
    ((∃ i : Int, 1 ≤ i ∧ i ≤ 3 ∧
        ∃ q ∈ sampleGameWall.players, q.color ≠ .yellow ∧
          2 ≤ countPieces q.pieces ((8 + i) % 52)) →
      canMove sampleGameWall 8 3 .yellow = false)) :=
  ⟨by decide, by decide, by decide,
    isPathBlocked_enemy_wall_spec sampleGameWall 8 3 .yellow (by decide) (by decide) (by decide)⟩

/-- `p.pieces.map((pos, i) => pos === newPos ? i : -1).filter(i => i !== -1)`:
the indices of the pieces standing on `pos`, accumulated from start index `i`. -/
def idxOfVal : List Int → Int → Nat → List Nat
  | [], _, _ => []
  | x :: xs, pos, i => if x = pos then i :: idxOfVal xs pos (i + 1) else idxOfVal xs pos (i + 1)

inductive PowerType where
  | BOOST
  | X2_NEXT
  | DOUBLE_ROLL
  | FREE_EXIT
  | BOMB
deriving DecidableEq

structure PowerEffect where
  type : PowerType
  msg : String
deriving DecidableEq

/-- The threshold chain of `applyPowerUp` mapping the raw `Math.random()`
sample to the drawn power-up type (newest iteration: 25/20/20/20/15%). -/
def pickPowerType (r : ℚ) : PowerType :=
  if r < 25/100 then .BOOST
  else if r < 45/100 then .X2_NEXT
  else if r < 65/100 then .DOUBLE_ROLL
  else if r < 85/100 then .FREE_EXIT
  else .BOMB

/-- The capture check of `movePiece` for one player `p` of the roster: the
mover's own entries are skipped (`p.id !== player.id`), a single enemy piece
on the landing cell is sent home unless it carries the armed bomb, and the
captured player's name is reported. -/
def captureOne (moverId : String) (newPos : Int) (p : LudoPlayerState) : LudoPlayerState × Option String :=
  if p.id = moverId then (p, none)
  else
    match idxOfVal p.pieces newPos 0 with
    | [idx] =>
      match p.bomb with
      | some b =>
        if b.pieceIndex = idx then (p, none)
        else ({ p with pieces := p.pieces.set idx (-1) }, some p.name)
      | none => ({ p with pieces := p.pieces.set idx (-1) }, some p.name)
    | _ => (p, none)

/-- The `game.players.forEach` capture loop of `movePiece`: every player is
examined, and `eatenPlayerName` ends as the last assigned captured name. -/
def applyCaptures (moverId : String) (newPos : Int) (ps : List LudoPlayerState) :
    List LudoPlayerState × Option String :=
  (ps.map (fun p => (captureOne moverId newPos p).1),
   (ps.filterMap (fun p => (captureOne moverId newPos p).2)).getLast?)

/-- `applyPowerUp` of the newest service iteration.  The stochastically drawn
type is passed as `draw`; `pickPowerType` is the draw itself.  Note that the
BOOST branch reads the piece position currently stored in the roster (which,
at the call site inside `movePiece`, is still the pre-move position). -/
def applyPowerUp (g : GameState) (playerId : String) (pieceIndex : Nat) (draw : PowerType) :
    GameState × PowerEffect :=
  match draw with
  | .BOOST =>
    match findFirst g.players playerId with
    | none => (g, { type := .BOOST, msg := "" })
    | some player =>
      let currentPos := player.pieces.getD pieceIndex 0
      if 0 ≤ currentPos ∧ currentPos ≤ 51 then
        let newPos := (currentPos + 4) % 52
        if isWallAt g newPos = false then
          ({ g with players := (updateFirst g.players playerId
              (fun p => { p with pieces := p.pieces.set pieceIndex newPos })) },
           { type := .BOOST, msg := "¡Turbo! Avanzas 4 casillas." })
        else (g, { type := .BOOST, msg := "¡Turbo bloqueado por Muro!" })
      else (g, { type := .BOOST, msg := "¡Turbo falló! (Zona segura)." })
  | .DOUBLE_ROLL =>
    ({ g with dice := none }, { type := .DOUBLE_ROLL, msg := "¡Tira otra vez!" })
  | .X2_NEXT =>
    ({ g with players := updateFirst g.players playerId (fun p => { p with multiplier := 2 }) },
     { type := .X2_NEXT, msg := "¡Tu próximo dado valdrá el doble!" })
  | .FREE_EXIT =>
    match findFirst g.players playerId with
    | none => (g, { type := .FREE_EXIT, msg := "" })
    | some player =>
      match player.pieces.findIdx? (fun p => p = -1) with
      | some homePieceIdx =>
        ({ g with players := (updateFirst g.players playerId
            (fun p => { p with pieces := p.pieces.set homePieceIdx (boardConfig player.color).start })) },
         { type := .FREE_EXIT, msg := "¡Escape! Sacaste una ficha de casa." })
      | none => (g, { type := .FREE_EXIT, msg := "¡Escape fallido! No tienes fichas en casa." })
  | .BOMB =>
    ({ g with players := (updateFirst g.players playerId
        (fun p => { p with bomb := some { pieceIndex := pieceIndex, timer := 3 } })) },
     { type := .BOMB, msg := "¡TIENES LA BOMBA! Explota al finalizar tu 3er turno." })

/-- `checkWinCondition`: all four pieces on the goal cell adds the player to
`winners` once; the session finishes when all but one player have won. -/
def checkWinCondition (g : GameState) (playerId : String) : GameState :=
  match findFirst g.players playerId with
  | none => g
  | some player =>
    if player.pieces.all (fun pos => decide (pos = (boardConfig player.color).finalPathStart + 5))
        ∧ g.winners.contains player.id = false then
      let winners := g.winners ++ [player.id]
      if winners.length = g.players.length - 1 ∧ 1 < g.players.length then
        { g with winners := winners, status := .finished }
      else { g with winners := winners }
    else g

structure MoveResult where
  success : Bool
  eatenPlayerName : Option String
  powerEffect : Option PowerEffect
deriving DecidableEq

/-- The landing-cell block of `movePiece` (lines guarded by
`newPos >= 0 && newPos <= 51`): capture loop, then power-up tile consumption
and effect resolution. -/
def captureAndPower (g : GameState) (playerId : String) (pieceIndex : Nat) (draw : PowerType)
    (newPos : Int) : GameState × Option String × Option PowerEffect :=
  if 0 ≤ newPos ∧ newPos ≤ 51 then
    let cap := applyCaptures playerId newPos g.players
    let g1 := { g with players := cap.1 }
    if g1.powerUps.any (fun e => decide (e.1 = newPos)) then
      let g2 := { g1 with powerUps := g1.powerUps.filter (fun e => !decide (e.1 = newPos)) }
      let pe := applyPowerUp g2 playerId pieceIndex draw
      (pe.1, cap.2, some pe.2)
    else (g1, cap.2, none)
  else (g, none, none)

/-- The tail of `movePiece`: `player.pieces[pieceIndex] = newPos; game.dice = null;
this.checkWinCondition(game, player);` — note the position is committed only
here, after the capture/power-up block. -/
def commitMove (g : GameState) (playerId : String) (pieceIndex : Nat) (newPos : Int) : GameState :=
  checkWinCondition
    { g with
      players := (updateFirst g.players playerId
        (fun p => { p with pieces := p.pieces.set pieceIndex newPos })),
      dice := none }
    playerId

/-- `movePiece` of the newest service iteration. -/
def movePiece (g : GameState) (playerId : String) (pieceIndex : Nat) (draw : PowerType) :
    GameState × MoveResult :=
  match findFirst g.players playerId with
  | none => (g, { success := false, eatenPlayerName := none, powerEffect := none })
  | some player =>
    let dice := g.dice.getD 0
    if dice ≤ 0 then (g, { success := false, eatenPlayerName := none, powerEffect := none })
    else if canMove g (player.pieces.getD pieceIndex 0) dice player.color = false then
      (g, { success := false, eatenPlayerName := none, powerEffect := none })
    else
      let newPos := resolveDestination (player.pieces.getD pieceIndex 0) dice player.color
      let step := captureAndPower g playerId pieceIndex draw newPos
      (commitMove step.1 playerId pieceIndex newPos,
       { success := true, eatenPlayerName := step.2.1, powerEffect := step.2.2 })

/-- `let dist = Math.abs(pos - bombPos); if (dist > 26) dist = 52 - dist;` -/
def ringDist (pos bombPos : Int) : Int :=
  if 26 < |pos - bombPos| then 52 - |pos - bombPos| else |pos - bombPos|

/-- The blast applied to one pieces array: every piece on a main-track cell at
ring distance at most 2 from the blast cell is sent home. -/
def blastPieces (bombPos : Int) (pieces : List Int) : List Int :=
  pieces.map (fun pos => if 0 ≤ pos ∧ pos ≤ 51 ∧ ringDist pos bombPos ≤ 2 then -1 else pos)

/-- The victim-name accumulation of the blast loop: a player's name is appended
the first time one of their pieces is hit (`!victims.includes(other.name)`). -/
def collectVictims (bombPos : Int) (ps : List LudoPlayerState) (init : List String) : List String :=
  ps.foldl
    (fun acc q =>
      if (q.pieces.any (fun pos => decide (0 ≤ pos ∧ pos ≤ 51 ∧ ringDist pos bombPos ≤ 2))) = true
          ∧ acc.contains q.name = false
      then acc ++ [q.name] else acc)
    init

/-- `handleTurnEnd` of the newest service iteration: decrements only the named
player's bomb, disarms it if the carried piece is home or in the final
stretch, and detonates when the countdown reaches zero.  The second component
is the emitted `explosion` payload `(pos, victims)`. -/
def handleTurnEnd (g : GameState) (playerId : String) : GameState × Option (Int × List String) :=
  match findFirst g.players playerId with
  | none => (g, none)
  | some p =>
    match p.bomb with
    | none => (g, none)
    | some b =>
      let timer := b.timer - 1
      let currentPos := p.pieces.getD b.pieceIndex 0
      if currentPos = -1 ∨ 100 ≤ currentPos then
        ({ g with players := (updateFirst g.players playerId (fun q => { q with bomb := none })) }, none)
      else if timer ≤ 0 then
        let bombPos := currentPos
        let players1 := updateFirst g.players playerId
          (fun q => { q with pieces := q.pieces.set b.pieceIndex (-1) })
        let victims := collectVictims bombPos players1 [p.name]
        let players2 := players1.map (fun q => { q with pieces := blastPieces bombPos q.pieces })
        let players3 := updateFirst players2 playerId (fun q => { q with bomb := none })
        ({ g with players := players3 }, some (bombPos, victims))
      else
        ({ g with players := (updateFirst g.players playerId
            (fun q => { q with bomb := some { pieceIndex := b.pieceIndex, timer := timer } })) }, none)

/-- Eligibility test of the `advanceTurn` scan: the candidate is neither in
`winners` nor withdrawn (all pieces `-99`). -/
def eligibleAt (players : List LudoPlayerState) (winners : List String) (i : Nat) : Bool :=
  match players.get? i with
  | some p => !(winners.contains p.id) && !(p.pieces.all (fun x => decide (x = -99)))
  | none => false

/-- The `do { nextIndex = (nextIndex+1) % n; ... } while (attempts < n)` scan of
`advanceTurn`; `fuel` is the remaining attempt budget, and `old` is returned
unchanged when the budget is exhausted. -/
def advanceLoop (players : List LudoPlayerState) (winners : List String) (old : Nat) :
    Nat → Nat → Nat
  | _, 0 => old
  | nextIndex, fuel + 1 =>
    let ni := (nextIndex + 1) % players.length
    if eligibleAt players winners ni then ni
    else advanceLoop players winners old ni fuel

/-- The `while (added < 3 && attempts < 30)` sampling loop of `spawnPowerUps`;
`rand` is the stream of sampled cells. -/
def spawnLoop (players : List LudoPlayerState) :
    List (Int × String) → Nat → Nat → List Int → List (Int × String)
  | pu, _, _, [] => pu
  | pu, added, attempts, pos :: rest =>
    if added < 3 ∧ attempts < 30 then
      if (players.any (fun p => p.pieces.contains pos)) = false
          ∧ (pu.any (fun e => decide (e.1 = pos))) = false then
        spawnLoop players (pu ++ [(pos, "mystery")]) (added + 1) (attempts + 1) rest
      else spawnLoop players pu added (attempts + 1) rest
    else pu

/-- `spawnPowerUps` (newest iteration): clears the unclaimed tiles, then places
up to 3 tiles on unoccupied, tile-free sampled cells. -/
def spawnPowerUps (g : GameState) (rand : List Int) : GameState :=
  { g with powerUps := spawnLoop g.players [] 0 0 rand }

/-- `advanceTurn`: clears the dice, counts the turn, respawns power-up tiles
every 6 turns, and scans forward for the next eligible player. -/
def advanceTurn (g : GameState) (rand : List Int) : GameState :=
  if g.status = .finished then g
  else
    let g1 := { g with dice := none, totalTurns := g.totalTurns + 1 }
    let g2 := if g1.totalTurns % 6 = 0 then spawnPowerUps g1 rand else g1
    { g2 with turnIndex := advanceLoop g2.players g2.winners g2.turnIndex g2.turnIndex g2.players.length }

/-- `rollDice`; the raw `Math.floor(Math.random()*6)+1` sample is passed as
`raw`.  A pending multiplier doubles the value and is consumed. -/
def rollDice (g : GameState) (raw : Int) : GameState × Option Int :=
  if g.status = .inProgress then
    match g.players.get? g.turnIndex with
    | none => (g, none)
    | some player =>
      let value := if 1 < player.multiplier then raw * player.multiplier else raw
      let players := if 1 < player.multiplier
        then g.players.set g.turnIndex { player with multiplier := 1 }
        else g.players
      ({ g with players := players, dice := some value }, some value)
  else (g, none)

/-- `surrender`: all pieces become `-99`, the turn advances if it was that
player's turn, and the session finishes when fewer than two active players
remain (the JS code pushes `activePlayers[0]?.id`, which is `undefined` when
nobody is left; that empty push is modelled as pushing nothing). -/
def surrender (g : GameState) (playerId : String) (rand : List Int) : GameState × Bool :=
  match findFirst g.players playerId with
  | none => (g, false)
  | some _ =>
    let g1 := { g with players := (updateFirst g.players playerId
        (fun p => { p with pieces := [-99, -99, -99, -99] })) }
    let g2 : GameState := match g1.players.get? g1.turnIndex with
      | some cur => if cur.id = playerId then advanceTurn g1 rand else g1
      | none => g1
    let active : List LudoPlayerState :=
      g2.players.filter (fun p => !(p.pieces.all (fun x => decide (x = -99))))
    if active.length < 2 ∧ 1 < g2.players.length then
      ({ g2 with
         status := .finished
         winners := g2.winners ++ (active.head?.map (fun p => p.id)).toList }, true)
    else (g2, true)

structure PlayerInfo where
  id : String
  name : String
  color : Color
deriving DecidableEq

def colorIdx : Color → Nat
  | .green => 0
  | .yellow => 1
  | .blue => 2
  | .red => 3

/-- Stable insertion of a player into a roster already sorted by color order
(equal keys keep their relative order, as JS `Array.sort` is stable). -/
def insertByColor (sorted : List LudoPlayerState) (a : LudoPlayerState) : List LudoPlayerState :=
  match sorted with
  | [] => [a]
  | b :: rest => if colorIdx a.color < colorIdx b.color then a :: b :: rest
                 else b :: insertByColor rest a

def sortByColor (ps : List LudoPlayerState) : List LudoPlayerState :=
  ps.foldl insertByColor []

/-- `startGame`: re-materializes the roster from the room record, sorts it by
the canonical color order, and unconditionally (re)sets the session to
in-progress with a fresh turn state. -/
def startGame (g : GameState) (roster : List PlayerInfo) : GameState :=
  { g with
    players := sortByColor (roster.map (fun p =>
      { id := p.id, name := p.name, color := p.color, pieces := [-1, -1, -1, -1],
        multiplier := 1, bomb := none })),
    status := .inProgress, turnIndex := 0, dice := none, winners := [],
    totalTurns := 0, powerUps := [] }

/-- `addPlayerToGame`: pushes a fresh roster entry unless the id is present. -/
def addPlayerToGame (g : GameState) (d : PlayerInfo) : GameState :=
  match findFirst g.players d.id with
  | some _ => g
  | none => { g with players := g.players ++
      [{ id := d.id, name := d.name, color := d.color, pieces := [-1, -1, -1, -1],
         multiplier := 1, bomb := none }] }

/-- The fresh session built by `createGame` for a new room. -/
def createGameFresh (roomId : String) (maxPlayers : Nat) : GameState :=
  { roomId := roomId, players := [], turnIndex := 0, dice := none, status := .waiting,
    maxPlayers := maxPlayers, winners := [], totalTurns := 0, powerUps := [] }

/-- The service's `games` map, keyed by room id (insertion order); mutating the
fetched session in place replaces the entries holding it. -/
def updateGameEntry : List (String × GameState) → String → GameState → List (String × GameState)
  | [], _, _ => []
  | e :: rest, roomId, g =>
    if e.1 = roomId then (e.1, g) :: updateGameEntry rest roomId g
    else e :: updateGameEntry rest roomId g

/-- Service-level `movePiece`: looks the room's session up in the `games` map
and mutates it in place; other rooms' sessions are untouched. -/
def serviceMovePiece (games : List (String × GameState)) (roomId playerId : String)
    (pieceIndex : Nat) (draw : PowerType) : List (String × GameState) × MoveResult :=
  match games.lookup roomId with
  | none => (games, { success := false, eatenPlayerName := none, powerEffect := none })
  | some g =>
    let out := movePiece g playerId pieceIndex draw
    (updateGameEntry games roomId out.1, out.2)

structure PowerUpEntry where
  pos : Int
  type : String
deriving DecidableEq

/-- The object returned by `getPublicGameState`: the session's scalar fields,
the full internal player records, and the power-up map as a `{pos, type}` array. -/
structure PublicState where
  roomId : String
  status : Status
  dice : Option Int
  turnIndex : Nat
  players : List LudoPlayerState
  winners : List String
  powerUps : List PowerUpEntry
deriving DecidableEq

/-- `getPublicGameState`: `null` when the room has no session. -/
def getPublicGameState (games : List (String × GameState)) (roomId : String) : Option PublicState :=
  match games.lookup roomId with
  | none => none
  | some g =>
    some
      { roomId := g.roomId
        status := g.status
        dice := g.dice
        turnIndex := g.turnIndex
        players := g.players
        winners := g.winners
        powerUps := g.powerUps.map (fun e => { pos := e.1, type := e.2 }) }

/-- The state-changing sequence of the gateway's `handleMovePiece` (timer
variant): turn-owner check, `movePiece`, and then — unconditionally —
`advanceTurn`, regardless of the resolved power-up effect. -/
def handleMovePieceFlow (g : GameState) (clientId : String) (pieceIndex : Nat)
    (draw : PowerType) (rand : List Int) : GameState × MoveResult :=
  if g.status = .inProgress then
    match g.players.get? g.turnIndex with
    | none => (g, { success := false, eatenPlayerName := none, powerEffect := none })
    | some current =>
      if current.id = clientId then
        let out := movePiece g current.id pieceIndex draw
        if out.2.success then (advanceTurn out.1 rand, out.2) else (out.1, out.2)
      else (g, { success := false, eatenPlayerName := none, powerEffect := none })
  else (g, { success := false, eatenPlayerName := none, powerEffect := none })

/-- One API operation on a session, with all stochastic inputs externalized.
`create` on an existing session returns it unchanged (`createGame` is
idempotent). -/
inductive Op where
  | create
  | addPlayer (d : PlayerInfo)
  | start (roster : List PlayerInfo)
  | roll (raw : Int)
  | move (playerId : String) (pieceIndex : Nat) (draw : PowerType)
  | giveUp (playerId : String) (rand : List Int)
deriving DecidableEq

def Op.isStart : Op → Bool
  | .start _ => true
  | _ => false

/-- The effect of each API operation on the addressed session. -/
def stepOp (g : GameState) : Op → GameState
  | .create => g
  | .addPlayer d => addPlayerToGame g d
  | .start roster => startGame g roster
  | .roll raw => (rollDice g raw).1
  | .move playerId pieceIndex draw => (movePiece g playerId pieceIndex draw).1
  | .giveUp playerId rand => (surrender g playerId rand).1

/-- C10.  `getPublicGameState` returns `null` exactly when no session exists
for the room; otherwise it returns the session's status, dice, turnIndex,
winners, the power-up tiles as an array of `{pos, type}` pairs, and the full
internal player records (each including the dice multiplier and armed bomb),
hiding no per-player power-up state. -/
theorem getPublicGameState_spec (games : List (String × GameState)) (roomId : String) :
    getPublicGameState games roomId =
      (games.lookup roomId).map (fun g =>
        { roomId := g.roomId
          status := g.status
          dice := g.dice
          turnIndex := g.turnIndex
          players := g.players
          winners := g.winners
          powerUps := g.powerUps.map (fun e => { pos := e.1, type := e.2 }) }) := by
  unfold getPublicGameState
  cases games.lookup roomId <;> rfl

/-- C4 is wrong about the code: after a successful move that draws
DOUBLE_ROLL, the session's dice is indeed null, but the gateway's
`handleMovePiece` calls `advanceTurn` unconditionally, so the turn passes to
the next player instead of staying with the mover.  Evaluated at a concrete
failing input: green (index 0) lands on the mystery tile at cell 5 and draws
DOUBLE_ROLL, yet `turnIndex` moves from 0 to 1. -/
theorem double_roll_turn_still_advances :
    (handleMovePieceFlow sampleGameA "p1" 0 .DOUBLE_ROLL []).2.powerEffect =
      some { type := .DOUBLE_ROLL, msg := "¡Tira otra vez!" } ∧
    sampleGameA.turnIndex = 0 ∧
    (handleMovePieceFlow sampleGameA "p1" 0 .DOUBLE_ROLL []).1.dice = none ∧
    (handleMovePieceFlow sampleGameA "p1" 0 .DOUBLE_ROLL []).1.turnIndex = 1 := by
  decide

/-- C8 is wrong about the code: in the newest `movePiece` the landing position
is committed (`player.pieces[pieceIndex] = newPos`) *after* `applyPowerUp`
runs, so the BOOST branch — which also reads the stale pre-move position —
is overwritten.  Evaluated at a concrete failing input: green moves 3 → 5 onto
the mystery tile, draws BOOST on the open main track, the effect reports the
success message, yet the piece ends on the landing cell 5, not 4 cells
further at 9. -/
theorem boost_overwritten_by_commit :
    resolveDestination 3 2 .green = 5 ∧
    ((5 : Int) + 4) % 52 = 9 ∧
    (movePiece sampleGameA "p1" 0 .BOOST).2.powerEffect =
      some { type := .BOOST, msg := "¡Turbo! Avanzas 4 casillas." } ∧
    (movePiece sampleGameA "p1" 0 .BOOST).1.players.map (fun p => p.pieces) =
      [[5, -1, -1, -1], [20, -1, -1, -1]] := by
  decide

lemma applyPowerUp_preserves (g : GameState) (pid : String) (i : Nat) (d : PowerType) :
    (applyPowerUp g pid i d).1.status = g.status ∧
    (applyPowerUp g pid i d).1.turnIndex = g.turnIndex ∧
    (applyPowerUp g pid i d).1.totalTurns = g.totalTurns ∧
    (applyPowerUp g pid i d).1.winners = g.winners := by
  cases d <;> simp only [applyPowerUp] <;> (repeat' split) <;> simp

lemma checkWinCondition_preserves (g : GameState) (pid : String) :
    (checkWinCondition g pid).players = g.players ∧
    (checkWinCondition g pid).turnIndex = g.turnIndex ∧
    (checkWinCondition g pid).totalTurns = g.totalTurns ∧
    (checkWinCondition g pid).dice = g.dice ∧
    ((checkWinCondition g pid).status = g.status ∨ (checkWinCondition g pid).status = .finished) := by
  simp only [checkWinCondition]
  (repeat' split) <;> simp

lemma captureAndPower_preserves (g : GameState) (pid : String) (i : Nat) (d : PowerType) (np : Int) :
    (captureAndPower g pid i d np).1.status = g.status ∧
    (captureAndPower g pid i d np).1.turnIndex = g.turnIndex ∧
    (captureAndPower g pid i d np).1.totalTurns = g.totalTurns := by
  simp only [captureAndPower]
  split
  · split
    · have h := applyPowerUp_preserves
        { g with
          players := (applyCaptures pid np g.players).1
          powerUps := g.powerUps.filter (fun e => !decide (e.1 = np)) } pid i d
      simpa using ⟨h.1, h.2.1, h.2.2.1⟩
    · simp
  · simp

lemma commitMove_preserves (g : GameState) (pid : String) (i : Nat) (np : Int) :
    (commitMove g pid i np).turnIndex = g.turnIndex ∧
    (commitMove g pid i np).totalTurns = g.totalTurns ∧
    (commitMove g pid i np).dice = none ∧
    ((commitMove g pid i np).status = g.status ∨ (commitMove g pid i np).status = .finished) := by
  unfold commitMove
  have h := checkWinCondition_preserves
    { g with
      players := (updateFirst g.players pid (fun p => { p with pieces := p.pieces.set i np }))
      dice := none } pid
  exact ⟨h.2.1, h.2.2.1, by rw [h.2.2.2.1], h.2.2.2.2⟩

lemma movePiece_preserves (g : GameState) (pid : String) (i : Nat) (d : PowerType) :
    (movePiece g pid i d).1.turnIndex = g.turnIndex ∧
    (movePiece g pid i d).1.totalTurns = g.totalTurns ∧
    ((movePiece g pid i d).1.status = g.status ∨ (movePiece g pid i d).1.status = .finished) := by
  cases hf : findFirst g.players pid with
  | none => simp [movePiece, hf]
  | some pl =>
    simp only [movePiece, hf]
    split
    · simp
    · split
      · simp
      · have hste := captureAndPower_preserves g pid i d
          (resolveDestination (pl.pieces.getD i 0) (g.dice.getD 0) pl.color)
        have hcm := commitMove_preserves
          (captureAndPower g pid i d
            (resolveDestination (pl.pieces.getD i 0) (g.dice.getD 0) pl.color)).1 pid i
          (resolveDestination (pl.pieces.getD i 0) (g.dice.getD 0) pl.color)
        refine ⟨hcm.1.trans hste.2.1, hcm.2.1.trans hste.2.2, ?_⟩
        rcases hcm.2.2.2 with h | h
        · left
          exact h.trans hste.1
        · right
          exact h

lemma spawnPowerUps_fields (g : GameState) (rand : List Int) :
    (spawnPowerUps g rand).players = g.players ∧
    (spawnPowerUps g rand).status = g.status ∧
    (spawnPowerUps g rand).turnIndex = g.turnIndex ∧
    (spawnPowerUps g rand).dice = g.dice ∧
    (spawnPowerUps g rand).totalTurns = g.totalTurns ∧
    (spawnPowerUps g rand).winners = g.winners := by
  simp [spawnPowerUps]

lemma advanceTurn_status (g : GameState) (rand : List Int) :
    (advanceTurn g rand).status = g.status := by
  simp only [advanceTurn]
  (repeat' split) <;> simp [spawnPowerUps]

lemma rollDice_status (g : GameState) (raw : Int) :
    (rollDice g raw).1.status = g.status := by
  simp only [rollDice]
  (repeat' split) <;> simp

lemma surrender_status (g : GameState) (pid : String) (rand : List Int) :
    (surrender g pid rand).1.status = g.status ∨ (surrender g pid rand).1.status = .finished := by
  cases hf : findFirst g.players pid with
  | none => simp [surrender, hf]
  | some pl =>
    simp only [surrender, hf]
    split
    · right
      rfl
    · left
      split
      · split
        · exact advanceTurn_status _ _
        · rfl
      · rfl

lemma addPlayerToGame_status (g : GameState) (d : PlayerInfo) :
    (addPlayerToGame g d).status = g.status := by
  simp only [addPlayerToGame]
  (repeat' split) <;> simp

/-- The concrete two-player roster and the start / surrender sequence that
drives a session to `finished` and then restarts it. -/
def sampleRosterTwo : List PlayerInfo :=
  [{ id := "p1", name := "Ana", color := .green }, { id := "p2", name := "Bea", color := .yellow }]

def sampleStarted : GameState := stepOp (createGameFresh "r1" 4) (.start sampleRosterTwo)

def sampleFinished : GameState := stepOp sampleStarted (.giveUp "p1" [])

/-- C7 is wrong about the code: `startGame` sets `status = 'in-progress'`
unconditionally, so the explicit start operation moves a `finished` session
back to `in-progress` (a restart).  Concrete run: create, start, surrender
(which finishes the two-player session), then start again. -/
theorem status_finished_to_inprogress_cex :
    sampleFinished.status = .finished ∧
    (stepOp sampleFinished (.start sampleRosterTwo)).status = .inProgress := by
  decide

/-- C7 amended: no API operation other than the explicit (re)start moves a
finished session out of `finished` — in particular never back to `waiting` or
`in-progress`; `startGame` alone re-initializes the session to `in-progress`. -/
theorem status_no_unfinish_except_start (g : GameState) (op : Op)
    (hop : op.isStart = false) (hfin : g.status = .finished) :
    (stepOp g op).status = .finished := by
  cases op with
  | create => exact hfin
  | addPlayer d => rw [stepOp, addPlayerToGame_status]; exact hfin
  | start roster => simp [Op.isStart] at hop
  | roll raw => rw [stepOp, rollDice_status]; exact hfin
  | move pid i d =>
    rcases (movePiece_preserves g pid i d).2.2 with h | h
    · rw [stepOp, h]; exact hfin
    · rw [stepOp]; exact h
  | giveUp pid rand =>
    rcases surrender_status g pid rand with h | h
    · rw [stepOp, h]; exact hfin
    · rw [stepOp]; exact h

/-- Witness for the amended C7: a roll on the concrete finished session leaves
it finished. -/
theorem status_no_unfinish_except_start_witness :
    (Op.roll 3).isStart = false ∧ sampleFinished.status = .finished ∧
    (stepOp sampleFinished (.roll 3)).status = .finished :=
  ⟨by decide, by decide,
    status_no_unfinish_except_start sampleFinished (.roll 3) (by decide) (by decide)⟩

lemma lookup_updateGameEntry_ne (games : List (String × GameState)) (roomId rid : String)
    (g : GameState) (h : rid ≠ roomId) :
    (updateGameEntry games roomId g).lookup rid = games.lookup rid := by
  induction games with
  | nil => rfl
  | cons e rest ih =>
    obtain ⟨k, v⟩ := e
    simp only [updateGameEntry]
    by_cases hk : k = roomId
    · subst hk
      rw [if_pos rfl]
      have hb : (rid == k) = false := beq_eq_false_iff_ne.mpr h
      simp only [List.lookup, hb]
      exact ih
    · rw [if_neg hk]
      simp only [List.lookup]
      cases hbe : (rid == k) with
      | true => rfl
      | false => exact ih

lemma lookup_updateGameEntry_self (games : List (String × GameState)) (roomId : String)
    (g g0 : GameState) (h : games.lookup roomId = some g0) :
    (updateGameEntry games roomId g).lookup roomId = some g := by
  induction games with
  | nil => simp [List.lookup] at h
  | cons e rest ih =>
    obtain ⟨k, v⟩ := e
    simp only [updateGameEntry]
    by_cases hk : k = roomId
    · subst hk
      rw [if_pos rfl]
      simp [List.lookup]
    · rw [if_neg hk]
      have hb : (roomId == k) = false := beq_eq_false_iff_ne.mpr (fun hh => hk hh.symm)
      simp only [List.lookup, hb] at h ⊢
      exact ih h

/-- C9.  A successful or failed `movePiece` call never touches `turnIndex` or
`totalTurns` (turn advancement happens only in `advanceTurn`), and the
service-level call mutates only the addressed room's session: every other
room's session is looked up unchanged afterwards. -/
theorem movePiece_frame_spec (games : List (String × GameState)) (roomId playerId : String)
    (pieceIndex : Nat) (draw : PowerType) (rid : String) (g : GameState)
    (hne : rid ≠ roomId) (hg : games.lookup roomId = some g) :
    (serviceMovePiece games roomId playerId pieceIndex draw).1.lookup rid = games.lookup rid ∧
    (serviceMovePiece games roomId playerId pieceIndex draw).1.lookup roomId =
      some (movePiece g playerId pieceIndex draw).1 ∧
    (movePiece g playerId pieceIndex draw).1.turnIndex = g.turnIndex ∧
    (movePiece g playerId pieceIndex draw).1.totalTurns = g.totalTurns := by
  have hmp := movePiece_preserves g playerId pieceIndex draw
  simp only [serviceMovePiece, hg]
  exact ⟨lookup_updateGameEntry_ne _ _ _ _ hne, lookup_updateGameEntry_self _ _ _ _ hg,
    hmp.1, hmp.2.1⟩

/-- Two-room service map for the C9 witness. -/
def sampleGamesMap : List (String × GameState) := [("r1", sampleGameA), ("r2", sampleGameWall)]

/-- Witness for C9: moving in room `r1` leaves room `r2`'s session untouched
and does not change `r1`'s `turnIndex`/`totalTurns`. -/
theorem movePiece_frame_spec_witness :
    ("r2" ≠ "r1") ∧ sampleGamesMap.lookup "r1" = some sampleGameA ∧
    ((serviceMovePiece sampleGamesMap "r1" "p1" 0 .BOOST).1.lookup "r2" =
        sampleGamesMap.lookup "r2" ∧
      (serviceMovePiece sampleGamesMap "r1" "p1" 0 .BOOST).1.lookup "r1" =
        some (movePiece sampleGameA "p1" 0 .BOOST).1 ∧
      (movePiece sampleGameA "p1" 0 .BOOST).1.turnIndex = sampleGameA.turnIndex ∧
      (movePiece sampleGameA "p1" 0 .BOOST).1.totalTurns = sampleGameA.totalTurns) :=
  ⟨by decide, by decide,
    movePiece_frame_spec sampleGamesMap "r1" "p1" 0 .BOOST "r2" sampleGameA
      (by decide) (by decide)⟩

/-- What C6 demands of the scan: the new index is the first index after the
old one (scanning forward cyclically, up to a full cycle) whose player is
eligible, and the old index is kept when a full cycle finds nobody. -/
def AdvanceScanSpec (players : List LudoPlayerState) (winners : List String)
    (old newIdx : Nat) : Prop :=
  (∃ a, a < players.length ∧
    eligibleAt players winners ((old + 1 + a) % players.length) = true ∧
    (∀ b, b < a → eligibleAt players winners ((old + 1 + b) % players.length) = false) ∧
    newIdx = (old + 1 + a) % players.length) ∨
  ((∀ a, a < players.length →
      eligibleAt players winners ((old + 1 + a) % players.length) = false) ∧
    newIdx = old)

lemma mod_add_shift (n j a : Nat) : ((j + 1) % n + 1 + a) % n = (j + 2 + a) % n := by
  have h1 : (j + 1) % n + 1 + a = (j + 1) % n + (1 + a) := by omega
  rw [h1, Nat.mod_add_mod]
  congr 1
  omega

lemma advanceLoop_spec (players : List LudoPlayerState) (winners : List String) (old : Nat) :
    ∀ fuel j,
      (∃ a, a < fuel ∧
        eligibleAt players winners ((j + 1 + a) % players.length) = true ∧
        (∀ b, b < a → eligibleAt players winners ((j + 1 + b) % players.length) = false) ∧
        advanceLoop players winners old j fuel = (j + 1 + a) % players.length) ∨
      ((∀ a, a < fuel → eligibleAt players winners ((j + 1 + a) % players.length) = false) ∧
        advanceLoop players winners old j fuel = old) := by
  intro fuel
  induction fuel with
  | zero =>
    intro j
    right
    exact ⟨fun a ha => absurd ha (Nat.not_lt_zero a), rfl⟩
  | succ fuel ih =>
    intro j
    simp only [advanceLoop]
    by_cases he : eligibleAt players winners ((j + 1) % players.length) = true
    · left
      refine ⟨0, Nat.succ_pos fuel, ?_, fun b hb => absurd hb (Nat.not_lt_zero b), ?_⟩
      · simpa using he
      · rw [if_pos he]
    · rw [if_neg he]
      rcases ih ((j + 1) % players.length) with ⟨a, ha, helig, hpre, heq⟩ | ⟨hnone, heq⟩
      · left
        refine ⟨a + 1, by omega, ?_, ?_, ?_⟩
        · rw [mod_add_shift] at helig
          have harr : j + 1 + (a + 1) = j + 2 + a := by omega
          rw [harr]
          exact helig
        · intro b hb
          cases b with
          | zero =>
            simpa using (Bool.not_eq_true _).mp he
          | succ b' =>
            have hb' : b' < a := by omega
            have := hpre b' hb'
            rw [mod_add_shift] at this
            have harr : j + 1 + (b' + 1) = j + 2 + b' := by omega
            rw [harr]
            exact this
        · rw [heq, mod_add_shift]
          congr 1
          omega
      · right
        refine ⟨?_, heq⟩
        intro a ha
        cases a with
        | zero =>
          simpa using (Bool.not_eq_true _).mp he
        | succ a' =>
          have ha' : a' < fuel := by omega
          have := hnone a' ha'
          rw [mod_add_shift] at this
          have harr : j + 1 + (a' + 1) = j + 2 + a' := by omega
          rw [harr]
          exact this

lemma advanceTurn_fields (g : GameState) (rand : List Int) (h : ¬ g.status = .finished) :
    (advanceTurn g rand).dice = none ∧
    (advanceTurn g rand).totalTurns = g.totalTurns + 1 ∧
    (advanceTurn g rand).players = g.players ∧
    (advanceTurn g rand).winners = g.winners ∧
    (advanceTurn g rand).turnIndex =
      advanceLoop g.players g.winners g.turnIndex g.turnIndex g.players.length := by
  simp only [advanceTurn, if_neg h]
  split <;> simp [spawnPowerUps]

/-- C6.  On a session that is not finished, `advanceTurn` clears the dice,
increments `totalTurns` by exactly one, and moves `turnIndex` to the first
index after the old one (scanning forward cyclically) whose player is neither
in `winners` nor withdrawn (all pieces `-99`); if a full cycle finds no
eligible player, `turnIndex` is left unchanged. -/
theorem advanceTurn_spec (g : GameState) (rand : List Int)
    (hs : ¬ g.status = .finished) (hp : g.players ≠ []) :
    (advanceTurn g rand).dice = none ∧
    (advanceTurn g rand).totalTurns = g.totalTurns + 1 ∧
    AdvanceScanSpec g.players g.winners g.turnIndex (advanceTurn g rand).turnIndex := by
  obtain ⟨h1, h2, _, _, h5⟩ := advanceTurn_fields g rand hs
  refine ⟨h1, h2, ?_⟩
  rw [AdvanceScanSpec, h5]
  exact advanceLoop_spec g.players g.winners g.turnIndex g.players.length g.turnIndex

/-- Four-player sample for the C6 witness: a winner ("w", id in `winners`), a
surrendered player ("s", all pieces `-99`), and two active players; the red
player at index 3 has just moved. -/
def samplePW : LudoPlayerState :=
  { id := "w", name := "Wanda", color := .green, pieces := [105, 105, 105, 105], multiplier := 1, bomb := none }

def samplePS : LudoPlayerState :=
  { id := "s", name := "Saul", color := .yellow, pieces := [-99, -99, -99, -99], multiplier := 1, bomb := none }

def samplePA : LudoPlayerState :=
  { id := "a", name := "Alba", color := .blue, pieces := [0, -1, -1, -1], multiplier := 1, bomb := none }

def samplePB : LudoPlayerState :=
  { id := "bq", name := "Bruno", color := .red, pieces := [1, -1, -1, -1], multiplier := 1, bomb := none }

def sampleGameTurn : GameState :=
  { roomId := "r3", players := [samplePW, samplePS, samplePA, samplePB], turnIndex := 3,
    dice := some 4, status := .inProgress, maxPlayers := 4, winners := ["w"],
    totalTurns := 7, powerUps := [] }

/-- Witness for C6: advancing past a winner and a surrendered player. -/
theorem advanceTurn_spec_witness :
    (¬ sampleGameTurn.status = .finished) ∧ sampleGameTurn.players ≠ [] ∧
    ((advanceTurn sampleGameTurn []).dice = none ∧
      (advanceTurn sampleGameTurn []).totalTurns = sampleGameTurn.totalTurns + 1 ∧
      AdvanceScanSpec sampleGameTurn.players sampleGameTurn.winners sampleGameTurn.turnIndex
        (advanceTurn sampleGameTurn []).turnIndex) :=
  ⟨by decide, by decide, advanceTurn_spec sampleGameTurn [] (by decide) (by decide)⟩

lemma updateFirst_length (ps : List LudoPlayerState) (pid : String)
    (f : LudoPlayerState → LudoPlayerState) :
    (updateFirst ps pid f).length = ps.length := by
  induction ps with
  | nil => rfl
  | cons p rest ih =>
    simp only [updateFirst]
    split <;> simp [ih]

lemma updateFirst_get?_cases (ps : List LudoPlayerState) (pid : String)
    (f : LudoPlayerState → LudoPlayerState) (j : Nat) :
    (updateFirst ps pid f).get? j = ps.get? j ∨
    ∃ q, ps.get? j = some q ∧ q.id = pid ∧ findFirst ps pid = some q ∧
      (updateFirst ps pid f).get? j = some (f q) := by
  induction ps generalizing j with
  | nil => left; rfl
  | cons p rest ih =>
    by_cases hp : p.id = pid
    · cases j with
      | zero =>
        right
        exact ⟨p, rfl, hp, by simp [findFirst, hp], by simp [updateFirst, hp]⟩
      | succ j' =>
        left
        simp [updateFirst, hp]
    · cases j with
      | zero =>
        left
        simp [updateFirst, hp]
      | succ j' =>
        rcases ih j' with h | ⟨q, h1, h2, h3, h4⟩
        · left
          simp only [updateFirst, if_neg hp, List.get?_cons_succ]
          exact h
        · right
          refine ⟨q, by simpa using h1, h2, by simp [findFirst, hp, h3], ?_⟩
          simp only [updateFirst, if_neg hp, List.get?_cons_succ]
          exact h4

lemma updateFirst_get?_ne (ps : List LudoPlayerState) (pid : String)
    (f : LudoPlayerState → LudoPlayerState) (j : Nat) (q : LudoPlayerState)
    (h : ps.get? j = some q) (hq : q.id ≠ pid) :
    (updateFirst ps pid f).get? j = some q := by
  rcases updateFirst_get?_cases ps pid f j with h' | ⟨q', h1, h2, _, _⟩
  · rw [h', h]
  · rw [h] at h1
    injection h1 with he
    subst he
    exact absurd h2 hq

lemma findFirst_id (ps : List LudoPlayerState) (pid : String) (q : LudoPlayerState)
    (h : findFirst ps pid = some q) : q.id = pid := by
  induction ps with
  | nil => simp [findFirst] at h
  | cons p rest ih =>
    simp only [findFirst] at h
    split at h
    · injection h with he
      subst he
      assumption
    · exact ih h

lemma findFirst_updateFirst (ps : List LudoPlayerState) (pid : String)
    (f : LudoPlayerState → LudoPlayerState) (q : LudoPlayerState)
    (h : findFirst ps pid = some q) (hid : (f q).id = q.id) :
    findFirst (updateFirst ps pid f) pid = some (f q) := by
  induction ps with
  | nil => simp [findFirst] at h
  | cons p rest ih =>
    simp only [findFirst] at h
    by_cases hp : p.id = pid
    · rw [if_pos hp] at h
      injection h with he
      subst he
      simp [updateFirst, findFirst, hp, hid.trans hp]
    · rw [if_neg hp] at h
      simp [updateFirst, findFirst, hp, ih h]

lemma findFirst_map (ps : List LudoPlayerState) (pid : String)
    (f : LudoPlayerState → LudoPlayerState) (hid : ∀ x, (f x).id = x.id) :
    findFirst (ps.map f) pid = (findFirst ps pid).map f := by
  induction ps with
  | nil => rfl
  | cons p rest ih =>
    simp only [List.map_cons, findFirst, hid p]
    split <;> simp [ih]

lemma list_get?_map (f : LudoPlayerState → LudoPlayerState) (l : List LudoPlayerState) (j : Nat) :
    (l.map f).get? j = (l.get? j).map f := by
  induction l generalizing j with
  | nil => rfl
  | cons p rest ih =>
    cases j with
    | zero => rfl
    | succ j' => simpa using ih j'

lemma collectVictims_nodup (bombPos : Int) (ps : List LudoPlayerState) (init : List String)
    (h : init.Nodup) : (collectVictims bombPos ps init).Nodup := by
  induction ps generalizing init with
  | nil => exact h
  | cons q rest ih =>
    simp only [collectVictims, List.foldl_cons] at ih ⊢
    split
    · rename_i hc
      apply ih
      have hnotmem : q.name ∉ init := by simpa using hc.2
      simp [List.nodup_append, h, hnotmem]
    · exact ih init h

lemma ringDist_eq_min (a b : Int) : ringDist a b = min |a - b| (52 - |a - b|) := by
  have h0 : (0 : Int) ≤ |a - b| := abs_nonneg _
  unfold ringDist
  rcases le_total (52 - |a - b|) |a - b| with h | h
  · rw [min_eq_right h]
    split <;> omega
  · rw [min_eq_left h]
    split <;> omega

lemma list_map_get? {α β : Type} (f : α → β) (l : List α) (j : Nat) :
    (l.map f).get? j = (l.get? j).map f := by
  induction l generalizing j with
  | nil => rfl
  | cons p rest ih =>
    cases j with
    | zero => rfl
    | succ j' => simpa using ih j'

lemma blastPieces_get? (b : Int) (l : List Int) (k : Nat) :
    (blastPieces b l).get? k =
      (l.get? k).map (fun pos => if 0 ≤ pos ∧ pos ≤ 51 ∧ ringDist pos b ≤ 2 then -1 else pos) := by
  simp [blastPieces, list_map_get?]

lemma blast_value_spec (pos0 : Int) (pcs : List Int) (k : Nat) (v : Int)
    (h : pcs.get? k = some v) :
    (100 ≤ v → (blastPieces pos0 pcs).get? k = some v) ∧
    (0 ≤ v → v ≤ 51 → min |v - pos0| (52 - |v - pos0|) ≤ 2 →
      (blastPieces pos0 pcs).get? k = some (-1)) := by
  rw [blastPieces_get?, h, Option.map_some']
  constructor
  · intro hv
    rw [if_neg]
    rintro ⟨_, h51, _⟩
    omega
  · intro h0 h51 hr
    rw [if_pos]
    exact ⟨h0, h51, by rw [ringDist_eq_min]; exact hr⟩

lemma updateFirst_pieces_preserved (ps : List LudoPlayerState) (pid : String)
    (f : LudoPlayerState → LudoPlayerState) (j : Nat) (q : LudoPlayerState)
    (h : ps.get? j = some q) (hf : ∀ r, (f r).pieces = r.pieces) :
    ∃ q', (updateFirst ps pid f).get? j = some q' ∧ q'.pieces = q.pieces := by
  rcases updateFirst_get?_cases ps pid f j with e | ⟨q2, hq2, _, _, e⟩
  · exact ⟨q, by rw [e, h], rfl⟩
  · rw [h] at hq2
    injection hq2 with he
    subst he
    exact ⟨f q, e, hf q⟩

lemma updateFirst_bomb_preserved (ps : List LudoPlayerState) (pid : String)
    (f : LudoPlayerState → LudoPlayerState) (j : Nat) (q q' : LudoPlayerState)
    (h : ps.get? j = some q) (hq : q.id ≠ pid)
    (h' : (updateFirst ps pid f).get? j = some q') : q'.bomb = q.bomb := by
  have := updateFirst_get?_ne ps pid f j q h hq
  rw [this] at h'
  injection h' with he
  subst he
  rfl

/-- The conjunction of facts C5 states about one `handleTurnEnd` call, for a
session whose first player with the given id carries the bomb
`{pieceIndex := bi, timer := t}`:
(1) no other player's bomb is touched (carrier-scoped countdown);
(2) if the carried piece is home (`-1`) or in a final stretch (`>= 100`,
which includes the goal), the bomb is disarmed with no detonation and no
piece moves;
(3) with 2 or more turns left the countdown just decrements, no piece moves;
(4) with 1 turn left it detonates: the explosion event fires at the carried
piece's cell with a duplicate-free victim list, the carrier's bombed piece is
home, every piece on a main-track cell within ring distance
`min(|a-b|, 52-|a-b|) <= 2` of the blast is home, and final-stretch pieces
are untouched regardless of numeric proximity. -/
def BombTurnEndSpec (g : GameState) (playerId : String) (pl : LudoPlayerState)
    (bi : Nat) (t : Int) : Prop :=
  let pos0 := pl.pieces.getD bi 0
  let g' := (handleTurnEnd g playerId).1
  let ev := (handleTurnEnd g playerId).2
  (g'.players.length = g.players.length) ∧
  (∀ j q q', g.players.get? j = some q → g'.players.get? j = some q' →
    q.id ≠ playerId → q'.bomb = q.bomb) ∧
  ((pos0 = -1 ∨ 100 ≤ pos0) →
    ev = none ∧
    (∀ j q q', g.players.get? j = some q → g'.players.get? j = some q' →
      q'.pieces = q.pieces) ∧
    (∃ pl', findFirst g'.players playerId = some pl' ∧ pl'.bomb = none)) ∧
  (¬ (pos0 = -1 ∨ 100 ≤ pos0) → 2 ≤ t →
    ev = none ∧
    (∀ j q q', g.players.get? j = some q → g'.players.get? j = some q' →
      q'.pieces = q.pieces) ∧
    (∃ pl', findFirst g'.players playerId = some pl' ∧
      pl'.bomb = some { pieceIndex := bi, timer := t - 1 })) ∧
  (¬ (pos0 = -1 ∨ 100 ≤ pos0) → t ≤ 1 →
    (∃ v, ev = some (pos0, v) ∧ v.Nodup) ∧
    (∃ pl', findFirst g'.players playerId = some pl' ∧ pl'.bomb = none ∧
      pl'.pieces.get? bi = some (-1)) ∧
    (∀ j q q', g.players.get? j = some q → g'.players.get? j = some q' →
      ∀ k v, q.pieces.get? k = some v →
        (100 ≤ v → q'.pieces.get? k = some v) ∧
        (0 ≤ v → v ≤ 51 → min |v - pos0| (52 - |v - pos0|) ≤ 2 →
          q'.pieces.get? k = some (-1))))

/-- C5.  The bomb countdown is carrier-scoped and detonation behaves as the
claim states; see `BombTurnEndSpec`. -/
theorem handleTurnEnd_bomb_spec (g : GameState) (playerId : String) (pl : LudoPlayerState)
    (bi : Nat) (t : Int)
    (hfind : findFirst g.players playerId = some pl)
    (hbomb : pl.bomb = some { pieceIndex := bi, timer := t })
    (hbi : bi < pl.pieces.length) :
    BombTurnEndSpec g playerId pl bi t := by
  unfold BombTurnEndSpec
  simp only [handleTurnEnd, hfind, hbomb]
  by_cases hd : pl.pieces.getD bi 0 = -1 ∨ 100 ≤ pl.pieces.getD bi 0
  · rw [if_pos hd]
    refine ⟨updateFirst_length _ _ _, ?_, ?_, ?_, ?_⟩
    · intro j q q' h1 h2 hne
      exact updateFirst_bomb_preserved _ _ _ _ _ _ h1 hne h2
    · intro _
      refine ⟨rfl, ?_, ?_⟩
      · intro j q q' h1 h2
        obtain ⟨q2, e, hpcs⟩ := updateFirst_pieces_preserved g.players playerId
          (fun r => { r with bomb := none }) j q h1 (fun r => rfl)
        rw [e] at h2
        injection h2 with he
        subst he
        exact hpcs
      · exact ⟨_, findFirst_updateFirst _ _ _ _ hfind rfl, rfl⟩
    · intro hnd _
      exact absurd hd hnd
    · intro hnd _
      exact absurd hd hnd
  · rw [if_neg hd]
    by_cases ht : t - 1 ≤ 0
    · rw [if_pos ht]
      refine ⟨?_, ?_, ?_, ?_, ?_⟩
      · rw [updateFirst_length, List.length_map, updateFirst_length]
      · intro j q q' h1 h2 hne
        have e1 := updateFirst_get?_ne g.players playerId
          (fun r => { r with pieces := r.pieces.set bi (-1) }) j q h1 hne
        have e2 : ((updateFirst g.players playerId
            (fun r => { r with pieces := r.pieces.set bi (-1) })).map
            (fun r => { r with pieces := blastPieces (pl.pieces.getD bi 0) r.pieces })).get? j =
            some { q with pieces := blastPieces (pl.pieces.getD bi 0) q.pieces } := by
          rw [list_map_get?, e1, Option.map_some']
        have e3 := updateFirst_get?_ne _ playerId (fun r => { r with bomb := none }) j _ e2 hne
        rw [e3] at h2
        injection h2 with he
        subst he
        rfl
      · intro hdd
        exact absurd hdd hd
      · intro _ h2t
        exact absurd ht (by omega)
      · intro _ _
        refine ⟨⟨_, rfl, collectVictims_nodup _ _ _ (List.nodup_singleton _)⟩, ?_, ?_⟩
        · have f1 := findFirst_updateFirst g.players playerId
            (fun r => { r with pieces := r.pieces.set bi (-1) }) pl hfind rfl
          have f2 : findFirst ((updateFirst g.players playerId
              (fun r => { r with pieces := r.pieces.set bi (-1) })).map
              (fun r => { r with pieces := blastPieces (pl.pieces.getD bi 0) r.pieces }))
              playerId =
              some { pl with
                pieces := blastPieces (pl.pieces.getD bi 0) (pl.pieces.set bi (-1)) } := by
            rw [findFirst_map _ playerId
              (fun r => { r with pieces := blastPieces (pl.pieces.getD bi 0) r.pieces })
              (fun x => rfl), f1, Option.map_some']
          have f3 := findFirst_updateFirst _ playerId (fun r => { r with bomb := none }) _ f2 rfl
          refine ⟨_, f3, rfl, ?_⟩
          show (blastPieces (pl.pieces.getD bi 0) (pl.pieces.set bi (-1))).get? bi = some (-1)
          rw [blastPieces_get?]
          have hset : (pl.pieces.set bi (-1)).get? bi = some (-1) :=
            List.get?_set_eq_of_lt (-1) hbi
          rw [hset, Option.map_some', if_neg]
          rintro ⟨hc, _, _⟩
          omega
        · intro j q q' h1 h2 k v hk
          rcases updateFirst_get?_cases g.players playerId
            (fun r => { r with pieces := r.pieces.set bi (-1) }) j with
            e1 | ⟨q2, hq2, hq2id, hq2find, e1⟩
          · have e1' : (updateFirst g.players playerId
                (fun r => { r with pieces := r.pieces.set bi (-1) })).get? j = some q := by
              rw [e1, h1]
            have e2 : ((updateFirst g.players playerId
                (fun r => { r with pieces := r.pieces.set bi (-1) })).map
                (fun r => { r with pieces := blastPieces (pl.pieces.getD bi 0) r.pieces })).get? j =
                some { q with pieces := blastPieces (pl.pieces.getD bi 0) q.pieces } := by
              rw [list_map_get?, e1', Option.map_some']
            obtain ⟨q3, e3, hpcs⟩ := updateFirst_pieces_preserved _ playerId
              (fun r => { r with bomb := none }) j _ e2 (fun r => rfl)
            rw [e3] at h2
            injection h2 with he
            subst he
            rw [hpcs]
            exact blast_value_spec _ _ _ _ hk
          · rw [h1] at hq2
            injection hq2 with he2
            subst he2
            rw [hfind] at hq2find
            injection hq2find with he3
            subst he3
            have e2 : ((updateFirst g.players playerId
                (fun r => { r with pieces := r.pieces.set bi (-1) })).map
                (fun r => { r with pieces := blastPieces (pl.pieces.getD bi 0) r.pieces })).get? j =
                some { pl with
                  pieces := blastPieces (pl.pieces.getD bi 0) (pl.pieces.set bi (-1)) } := by
              rw [list_map_get?, e1, Option.map_some']
            obtain ⟨q3, e3, hpcs⟩ := updateFirst_pieces_preserved _ playerId
              (fun r => { r with bomb := none }) j _ e2 (fun r => rfl)
            rw [e3] at h2
            injection h2 with he
            subst he
            rw [hpcs]
            by_cases hkbi : k = bi
            · subst hkbi
              have hvk : pl.pieces[k]? = some v := by
                rw [← List.get?_eq_getElem?]
                exact hk
              have hv : v = pl.pieces.getD k 0 := by
                simp [List.getD, hvk]
              constructor
              · intro h100
                exact absurd (Or.inr (hv ▸ h100)) hd
              · intro _ _ _
                rw [blastPieces_get?]
                have hset : (pl.pieces.set k (-1)).get? k = some (-1) :=
                  List.get?_set_eq_of_lt (-1) hbi
                rw [hset, Option.map_some', if_neg]
                rintro ⟨hc, _, _⟩
                omega
            · have hset : (pl.pieces.set bi (-1)).get? k = pl.pieces.get? k :=
                List.get?_set_ne (-1) _ (fun hh => hkbi hh.symm)
              have hk' : (pl.pieces.set bi (-1)).get? k = some v := by
                rw [hset]
                exact hk
              exact blast_value_spec _ _ _ _ hk'
    · rw [if_neg ht]
      refine ⟨updateFirst_length _ _ _, ?_, ?_, ?_, ?_⟩
      · intro j q q' h1 h2 hne
        exact updateFirst_bomb_preserved _ _ _ _ _ _ h1 hne h2
      · intro hdd
        exact absurd hdd hd
      · intro _ _
        refine ⟨rfl, ?_, ?_⟩
        · intro j q q' h1 h2
          obtain ⟨q2, e, hpcs⟩ := updateFirst_pieces_preserved g.players playerId
            (fun r => { r with bomb := some { pieceIndex := bi, timer := t - 1 } }) j q h1
            (fun r => rfl)
          rw [e] at h2
          injection h2 with he
          subst he
          exact hpcs
        · exact ⟨_, findFirst_updateFirst _ _ _ _ hfind rfl, rfl⟩
      · intro _ h1t
        exact absurd (show t - 1 ≤ 0 by omega) ht

/-- Bomb-carrying sample for the C5 witness: green carries an armed bomb
(timer 3) on its piece at cell 10; yellow has pieces at cells 11 and 30. -/
def samplePBomb : LudoPlayerState :=
  { id := "b1", name := "Cai", color := .green, pieces := [10, -1, -1, -1], multiplier := 1,
    bomb := some { pieceIndex := 0, timer := 3 } }

def samplePNear : LudoPlayerState :=
  { id := "b2", name := "Nia", color := .yellow, pieces := [11, 30, -1, -1], multiplier := 1,
    bomb := none }

def sampleGameBomb : GameState :=
  { roomId := "r4", players := [samplePBomb, samplePNear], turnIndex := 0, dice := none,
    status := .inProgress, maxPlayers := 4, winners := [], totalTurns := 3, powerUps := [] }

/-- Witness for C5 at the concrete bomb-carrying game. -/
theorem handleTurnEnd_bomb_spec_witness :
    findFirst sampleGameBomb.players "b1" = some samplePBomb ∧
    samplePBomb.bomb = some { pieceIndex := 0, timer := 3 } ∧
    0 < samplePBomb.pieces.length ∧
    BombTurnEndSpec sampleGameBomb "b1" samplePBomb 0 3 :=
  ⟨by decide, by decide, by decide,
    handleTurnEnd_bomb_spec sampleGameBomb "b1" samplePBomb 0 3 (by decide) (by decide)
      (by decide)⟩

lemma list_get?_some_lt (l : List Int) (k : Nat) (v : Int) (h : l.get? k = some v) :
    k < l.length := by
  by_contra hc
  rw [List.get?_eq_none.mpr (by omega)] at h
  cases h

lemma idxOfVal_length (l : List Int) (C : Int) :
    ∀ i, (idxOfVal l C i).length = countPieces l C := by
  induction l with
  | nil => intro i; rfl
  | cons x rest ih =>
    intro i
    by_cases hx : x = C <;>
      simp [idxOfVal, countPieces, List.filter_cons, hx, ih (i + 1)]

lemma idxOfVal_mem (l : List Int) (C : Int) :
    ∀ i k, k ∈ idxOfVal l C i ↔ ∃ j, l.get? j = some C ∧ k = i + j := by
  induction l with
  | nil => intro i k; simp [idxOfVal]
  | cons x rest ih =>
    intro i k
    by_cases hx : x = C
    · simp only [idxOfVal, if_pos hx, List.mem_cons]
      constructor
      · rintro (rfl | hm)
        · exact ⟨0, by simp [hx], by omega⟩
        · obtain ⟨j, hj, hk⟩ := (ih (i + 1) k).mp hm
          exact ⟨j + 1, by simpa using hj, by omega⟩
      · rintro ⟨j, hj, rfl⟩
        cases j with
        | zero => left; omega
        | succ j' =>
          right
          exact (ih (i + 1) _).mpr ⟨j', by simpa using hj, by omega⟩
    · simp only [idxOfVal, if_neg hx]
      constructor
      · intro hm
        obtain ⟨j, hj, hk⟩ := (ih (i + 1) k).mp hm
        exact ⟨j + 1, by simpa using hj, by omega⟩
      · rintro ⟨j, hj, rfl⟩
        cases j with
        | zero =>
          exfalso
          simp only [List.get?_cons_zero] at hj
          injection hj with he
          exact hx he
        | succ j' =>
          exact (ih (i + 1) _).mpr ⟨j', by simpa using hj, by omega⟩

lemma idxOfVal_eq_singleton (l : List Int) (C : Int) (k : Nat)
    (hc : countPieces l C = 1) (hk : l.get? k = some C) :
    idxOfVal l C 0 = [k] := by
  have hlen : (idxOfVal l C 0).length = 1 := by rw [idxOfVal_length]; exact hc
  obtain ⟨k0, hk0⟩ : ∃ k0, idxOfVal l C 0 = [k0] := by
    cases h : idxOfVal l C 0 with
    | nil => rw [h] at hlen; simp at hlen
    | cons a tl =>
      cases tl with
      | nil => exact ⟨a, rfl⟩
      | cons b tl2 => rw [h] at hlen; simp at hlen
  have hkmem : k ∈ idxOfVal l C 0 := (idxOfVal_mem l C 0 k).mpr ⟨k, hk, by omega⟩
  rw [hk0] at hkmem
  simp only [List.mem_singleton] at hkmem
  rw [hk0, hkmem]

lemma captureOne_fst_fields (mid : String) (C : Int) (p : LudoPlayerState) :
    (captureOne mid C p).1.id = p.id ∧ (captureOne mid C p).1.name = p.name ∧
    (captureOne mid C p).1.bomb = p.bomb := by
  unfold captureOne
  (repeat' split) <;> simp

lemma captureOne_self (mid : String) (C : Int) (p : LudoPlayerState) (h : p.id = mid) :
    captureOne mid C p = (p, none) := by
  unfold captureOne
  rw [if_pos h]

lemma captureOne_pieces_spec (mid : String) (C : Int) (p : LudoPlayerState) (k : Nat)
    (hid : p.id ≠ mid) (hC : C ≠ -1) (hk : p.pieces.get? k = some C) :
    ((captureOne mid C p).1.pieces.get? k = some (-1) ↔
      (countPieces p.pieces C = 1 ∧ ∀ b, p.bomb = some b → b.pieceIndex ≠ k)) ∧
    (¬ (countPieces p.pieces C = 1 ∧ ∀ b, p.bomb = some b → b.pieceIndex ≠ k) →
      (captureOne mid C p).1.pieces.get? k = some C) := by
  have hkl : k < p.pieces.length := list_get?_some_lt _ _ _ hk
  by_cases hc : countPieces p.pieces C = 1
  · have hsing := idxOfVal_eq_singleton p.pieces C k hc hk
    unfold captureOne
    rw [if_neg hid, hsing]
    cases hb : p.bomb with
    | none =>
      refine ⟨⟨fun _ => ⟨hc, by simp⟩, fun _ => List.get?_set_eq_of_lt (-1) hkl⟩, ?_⟩
      intro hcontra
      exact absurd ⟨hc, by simp⟩ hcontra
    | some b =>
      dsimp only
      by_cases hbk : b.pieceIndex = k
      · rw [if_pos hbk]
        constructor
        · constructor
          · intro habs
            rw [hk] at habs
            injection habs with hv
            exact absurd hv hC
          · rintro ⟨_, hball⟩
            exact absurd hbk (hball b rfl)
        · intro _
          exact hk
      · rw [if_neg hbk]
        have htarget : countPieces p.pieces C = 1 ∧ ∀ b1, some b = some b1 → b1.pieceIndex ≠ k := by
          refine ⟨hc, fun b1 h1 => ?_⟩
          injection h1 with he
          subst he
          exact hbk
        refine ⟨⟨fun _ => htarget, fun _ => List.get?_set_eq_of_lt (-1) hkl⟩, ?_⟩
        intro hcontra
        exact absurd htarget hcontra
  · have hdef : (captureOne mid C p).1 = p := by
      unfold captureOne
      rw [if_neg hid]
      rcases hio : idxOfVal p.pieces C 0 with _ | ⟨a, _ | ⟨b2, tl⟩⟩
      · rfl
      · exfalso
        apply hc
        have := idxOfVal_length p.pieces C 0
        rw [hio] at this
        simpa using this.symm
      · rfl
    rw [hdef]
    constructor
    · constructor
      · intro habs
        rw [hk] at habs
        injection habs with hv
        exact absurd hv hC
      · rintro ⟨h1, _⟩
        exact absurd h1 hc
    · intro _
      exact hk

lemma captureOne_snd_of_target (mid : String) (C : Int) (p : LudoPlayerState)
    (hid : p.id ≠ mid) (hc : countPieces p.pieces C = 1)
    (hb : ∀ b k, p.bomb = some b → p.pieces.get? k = some C → b.pieceIndex ≠ k) :
    (captureOne mid C p).2 = some p.name := by
  have hex : ∃ k, p.pieces.get? k = some C := by
    have hlen : (idxOfVal p.pieces C 0).length = 1 := by rw [idxOfVal_length]; exact hc
    cases hio : idxOfVal p.pieces C 0 with
    | nil => rw [hio] at hlen; simp at hlen
    | cons a tl =>
      have ham : a ∈ idxOfVal p.pieces C 0 := by rw [hio]; simp
      obtain ⟨j, hj, _⟩ := (idxOfVal_mem _ _ 0 a).mp ham
      exact ⟨j, hj⟩
  obtain ⟨k, hk⟩ := hex
  have hsing := idxOfVal_eq_singleton p.pieces C k hc hk
  unfold captureOne
  rw [if_neg hid, hsing]
  cases hbo : p.bomb with
  | none => rfl
  | some b =>
    dsimp only
    rw [if_neg (hb b k hbo hk)]

lemma captureOne_snd_some (mid : String) (C : Int) (p : LudoPlayerState) (nm : String)
    (h : (captureOne mid C p).2 = some nm) :
    nm = p.name ∧ p.id ≠ mid ∧ countPieces p.pieces C = 1 ∧
      ∀ b k, p.bomb = some b → p.pieces.get? k = some C → b.pieceIndex ≠ k := by
  unfold captureOne at h
  by_cases hid : p.id = mid
  · rw [if_pos hid] at h
    cases h
  · rw [if_neg hid] at h
    rcases hio : idxOfVal p.pieces C 0 with _ | ⟨a, _ | ⟨b2, tl⟩⟩ <;> rw [hio] at h
    · cases h
    · have hcount : countPieces p.pieces C = 1 := by
        have hl := idxOfVal_length p.pieces C 0
        rw [hio] at hl
        simpa using hl.symm
      have hbindex : ∀ b k, p.bomb = some b → p.pieces.get? k = some C → b.pieceIndex ≠ k := by
        intro b k hbo hkC
        have hkm : k ∈ idxOfVal p.pieces C 0 := (idxOfVal_mem _ _ 0 k).mpr ⟨k, hkC, by omega⟩
        rw [hio] at hkm
        simp only [List.mem_singleton] at hkm
        subst hkm
        intro hbka
        rw [hbo] at h
        dsimp only at h
        rw [if_pos hbka] at h
        cases h
      cases hbo : p.bomb with
      | none =>
        rw [hbo] at h
        dsimp only at h
        injection h with he
        exact ⟨he.symm, hid, hcount, fun b1 k h1 hk2 => hbindex b1 k (by rw [hbo]; exact h1) hk2⟩
      | some b =>
        rw [hbo] at h
        dsimp only at h
        by_cases hbk : b.pieceIndex = a
        · rw [if_pos hbk] at h
          cases h
        · rw [if_neg hbk] at h
          injection h with he
          exact ⟨he.symm, hid, hcount, fun b1 k h1 hk2 => hbindex b1 k (by rw [hbo]; exact h1) hk2⟩
    · cases h

lemma applyCaptures_get? (mid : String) (C : Int) (ps : List LudoPlayerState) (j : Nat)
    (q : LudoPlayerState) (h : ps.get? j = some q) :
    (applyCaptures mid C ps).1.get? j = some (captureOne mid C q).1 := by
  simp only [applyCaptures]
  rw [list_map_get?, h, Option.map_some']

lemma applyCaptures_snd_spec (mid : String) (C : Int) (ps : List LudoPlayerState)
    (q : LudoPlayerState) (hq : q ∈ ps) (hsome : (captureOne mid C q).2 = some q.name) :
    ∃ nm q2, (applyCaptures mid C ps).2 = some nm ∧ q2 ∈ ps ∧
      (captureOne mid C q2).2 = some nm := by
  have hmemf : q.name ∈ ps.filterMap (fun p => (captureOne mid C p).2) :=
    List.mem_filterMap.mpr ⟨q, hq, hsome⟩
  cases hlast : (ps.filterMap (fun p => (captureOne mid C p).2)).getLast? with
  | none =>
    rw [List.getLast?_eq_none_iff.mp hlast] at hmemf
    cases hmemf
  | some nm =>
    have hmem : nm ∈ ps.filterMap (fun p => (captureOne mid C p).2) :=
      List.mem_of_mem_getLast? hlast
    obtain ⟨q2, hq2, hq2some⟩ := List.mem_filterMap.mp hmem
    exact ⟨nm, q2, by simp [applyCaptures, hlast], hq2, hq2some⟩

lemma applyPowerUp_get?_ne (g : GameState) (pid : String) (i : Nat) (d : PowerType)
    (j : Nat) (q : LudoPlayerState) (h : g.players.get? j = some q) (hq : q.id ≠ pid) :
    (applyPowerUp g pid i d).1.players.get? j = some q := by
  cases d <;> simp only [applyPowerUp] <;> (repeat' split) <;>
    first
      | exact h
      | exact updateFirst_get?_ne _ _ _ _ _ h hq

lemma captureAndPower_get?_ne (g : GameState) (pid : String) (i : Nat) (d : PowerType)
    (np : Int) (hnp : 0 ≤ np ∧ np ≤ 51) (j : Nat) (q : LudoPlayerState)
    (h : g.players.get? j = some q) (hq : q.id ≠ pid) :
    (captureAndPower g pid i d np).1.players.get? j = some (captureOne pid np q).1 := by
  simp only [captureAndPower]
  rw [if_pos hnp]
  have hcap := applyCaptures_get? pid np g.players j q h
  have hqid : (captureOne pid np q).1.id ≠ pid := by
    rw [(captureOne_fst_fields pid np q).1]
    exact hq
  split
  · exact applyPowerUp_get?_ne _ pid i d j _ hcap hqid
  · exact hcap

lemma captureAndPower_snd_fst (g : GameState) (pid : String) (i : Nat) (d : PowerType)
    (np : Int) (hnp : 0 ≤ np ∧ np ≤ 51) :
    (captureAndPower g pid i d np).2.1 = (applyCaptures pid np g.players).2 := by
  simp only [captureAndPower]
  rw [if_pos hnp]
  split <;> rfl

lemma commitMove_get?_ne (g : GameState) (pid : String) (i : Nat) (np : Int) (j : Nat)
    (q : LudoPlayerState) (h : g.players.get? j = some q) (hq : q.id ≠ pid) :
    (commitMove g pid i np).players.get? j = some q := by
  unfold commitMove
  rw [(checkWinCondition_preserves _ _).1]
  exact updateFirst_get?_ne _ _ _ _ _ h hq

lemma commitMove_players_length (g : GameState) (pid : String) (i : Nat) (np : Int) :
    (commitMove g pid i np).players.length = g.players.length := by
  unfold commitMove
  rw [(checkWinCondition_preserves _ _).1]
  exact updateFirst_length _ _ _

lemma applyPowerUp_players_length (g : GameState) (pid : String) (i : Nat) (d : PowerType) :
    (applyPowerUp g pid i d).1.players.length = g.players.length := by
  cases d <;> simp only [applyPowerUp] <;> (repeat' split) <;> simp [updateFirst_length]

lemma captureAndPower_players_length (g : GameState) (pid : String) (i : Nat) (d : PowerType)
    (np : Int) :
    (captureAndPower g pid i d np).1.players.length = g.players.length := by
  simp only [captureAndPower]
  split
  · split
    · rw [applyPowerUp_players_length]
      simp [applyCaptures]
    · simp [applyCaptures]
  · rfl

lemma movePiece_success_eq (g : GameState) (playerId : String) (pieceIndex : Nat)
    (draw : PowerType) (pl : LudoPlayerState) (d : Int)
    (hfind : findFirst g.players playerId = some pl)
    (hdice : g.dice = some d) (hd : 0 < d)
    (hcan : canMove g (pl.pieces.getD pieceIndex 0) d pl.color = true) :
    movePiece g playerId pieceIndex draw =
      (commitMove (captureAndPower g playerId pieceIndex draw
          (resolveDestination (pl.pieces.getD pieceIndex 0) d pl.color)).1 playerId pieceIndex
          (resolveDestination (pl.pieces.getD pieceIndex 0) d pl.color),
       { success := true,
         eatenPlayerName := (captureAndPower g playerId pieceIndex draw
           (resolveDestination (pl.pieces.getD pieceIndex 0) d pl.color)).2.1,
         powerEffect := (captureAndPower g playerId pieceIndex draw
           (resolveDestination (pl.pieces.getD pieceIndex 0) d pl.color)).2.2 }) := by
  have hcan2 : canMove g (pl.pieces[pieceIndex]?.getD 0) d pl.color = true := by
    simpa using hcan
  simp only [movePiece, hfind, hdice, Option.getD_some]
  rw [if_neg (by omega), if_neg (by simp [hcan2])]

/-- An opponent with exactly one (unbombed) piece on the landing cell — the
configuration C2 says is captured. -/
def LoneCaptureTarget (playerId : String) (C : Int) (q : LudoPlayerState) : Prop :=
  q.id ≠ playerId ∧ countPieces q.pieces C = 1 ∧
    ∀ b k, q.bomb = some b → q.pieces.get? k = some C → b.pieceIndex ≠ k

/-- The conjunction of facts C2 states about a successful move landing on the
main-track cell `C`: the move succeeds; the roster keeps its shape; for every
opponent (all of them examined, no short-circuit) a piece standing on `C` is
reset to home `-1` exactly when that opponent has exactly one piece on `C`
and that piece is not the opponent's armed-bomb piece, and is left on `C`
otherwise; and when some opponent satisfies the capture condition the move's
result reports a captured player's name. -/
def CaptureSpec (g : GameState) (playerId : String) (pieceIndex : Nat) (draw : PowerType)
    (C : Int) : Prop :=
  let out := movePiece g playerId pieceIndex draw
  out.2.success = true ∧
  out.1.players.length = g.players.length ∧
  (∀ j q q', g.players.get? j = some q → out.1.players.get? j = some q' →
    q.id ≠ playerId →
    q'.id = q.id ∧ q'.name = q.name ∧
    ∀ k, q.pieces.get? k = some C →
      (q'.pieces.get? k = some (-1) ↔
        (countPieces q.pieces C = 1 ∧ ∀ b, q.bomb = some b → b.pieceIndex ≠ k)) ∧
      (¬ (countPieces q.pieces C = 1 ∧ ∀ b, q.bomb = some b → b.pieceIndex ≠ k) →
        q'.pieces.get? k = some C)) ∧
  ((∃ q ∈ g.players, LoneCaptureTarget playerId C q) →
    ∃ nm, out.2.eatenPlayerName = some nm ∧
      ∃ q ∈ g.players, LoneCaptureTarget playerId C q ∧ q.name = nm)

/-- C2.  Capture semantics of `movePiece` on a main-track landing cell; see
`CaptureSpec`. -/
theorem movePiece_capture_spec (g : GameState) (playerId : String) (pieceIndex : Nat)
    (draw : PowerType) (pl : LudoPlayerState) (d C : Int)
    (hfind : findFirst g.players playerId = some pl)
    (hdice : g.dice = some d) (hd : 0 < d)
    (hcan : canMove g (pl.pieces.getD pieceIndex 0) d pl.color = true)
    (hC : C = resolveDestination (pl.pieces.getD pieceIndex 0) d pl.color)
    (hC0 : 0 ≤ C) (hC51 : C ≤ 51) :
    CaptureSpec g playerId pieceIndex draw C := by
  simp only [CaptureSpec]
  rw [movePiece_success_eq g playerId pieceIndex draw pl d hfind hdice hd hcan, ← hC]
  refine ⟨rfl, ?_, ?_, ?_⟩
  · rw [commitMove_players_length, captureAndPower_players_length]
  · intro j q q' h1 h2 hne
    have hcap := captureAndPower_get?_ne g playerId pieceIndex draw C ⟨hC0, hC51⟩ j q h1 hne
    have hcm := commitMove_get?_ne _ playerId pieceIndex C j _ hcap
      (by rw [(captureOne_fst_fields playerId C q).1]; exact hne)
    rw [hcm] at h2
    injection h2 with he
    subst he
    refine ⟨(captureOne_fst_fields playerId C q).1, (captureOne_fst_fields playerId C q).2.1, ?_⟩
    intro k hk
    exact captureOne_pieces_spec playerId C q k hne (by omega) hk
  · rintro ⟨q, hqmem, hqid, hqcount, hqbomb⟩
    have hsome := captureOne_snd_of_target playerId C q hqid hqcount hqbomb
    obtain ⟨nm, q2, hnm, hq2mem, hq2some⟩ :=
      applyCaptures_snd_spec playerId C g.players q hqmem hsome
    obtain ⟨hnm2, hid2, hcount2, hbomb2⟩ := captureOne_snd_some playerId C q2 nm hq2some
    refine ⟨nm, ?_, q2, hq2mem, ⟨hid2, hcount2, hbomb2⟩, hnm2.symm⟩
    rw [captureAndPower_snd_fst g playerId pieceIndex draw C ⟨hC0, hC51⟩]
    exact hnm

/-- Three-player sample for the C2 witness: green moves 3 → 5 where both
yellow and blue each have exactly one piece — both are captured. -/
def sampleMover : LudoPlayerState :=
  { id := "m", name := "Mia", color := .green, pieces := [3, -1, -1, -1], multiplier := 1,
    bomb := none }

def sampleOppOne : LudoPlayerState :=
  { id := "o1", name := "Ona", color := .yellow, pieces := [5, -1, -1, -1], multiplier := 1,
    bomb := none }

def sampleOppTwo : LudoPlayerState :=
  { id := "o2", name := "Ovi", color := .blue, pieces := [5, 30, -1, -1], multiplier := 1,
    bomb := none }

def sampleGameCapture : GameState :=
  { roomId := "r5", players := [sampleMover, sampleOppOne, sampleOppTwo], turnIndex := 0,
    dice := some 2, status := .inProgress, maxPlayers := 4, winners := [], totalTurns := 0,
    powerUps := [] }

/-- Witness for C2 at the concrete three-player double-capture game. -/
theorem movePiece_capture_spec_witness :
    findFirst sampleGameCapture.players "m" = some sampleMover ∧
    sampleGameCapture.dice = some 2 ∧ (0 : Int) < 2 ∧
    canMove sampleGameCapture (sampleMover.pieces.getD 0 0) 2 sampleMover.color = true ∧
    (5 : Int) = resolveDestination (sampleMover.pieces.getD 0 0) 2 sampleMover.color ∧
    (0 : Int) ≤ 5 ∧ (5 : Int) ≤ 51 ∧
    CaptureSpec sampleGameCapture "m" 0 .BOOST 5 :=
  ⟨by decide, by decide, by decide, by decide, by decide, by decide, by decide,
    movePiece_capture_spec sampleGameCapture "m" 0 .BOOST sampleMover 2 5 (by decide)
      (by decide) (by decide) (by decide) (by decide) (by decide) (by decide)⟩
